import Mathlib

/-!
Verification development for the clap command-line-parsing toolkit
(src/clap/option.py, src/clap/modes.py, src/clap/helper.py and the example
program src/docs/echo/program.py), shallowly embedded in Lean.

Python strings are embedded as Lean `String` except in the word-wrapping
module, where `List Char` is used so that splitting and joining admit
straightforward induction. Python exceptions are embedded as `Except PyError`
results. The modules `clap.base`, `clap.shared`, `clap.mode` and the
parsed-UI cursor of `clap.parser` are referenced by the sources but are not
part of this source set; their definitions below are modelled from the
specification's description of the depended-upon surface and are marked
`Modelled from the spec:` in their doc comments.
-/

namespace Clap

/-- The Python exceptions the embedded code can raise. `typeError` covers both
the configuration errors option.py raises explicitly and the TypeErrors the
interpreter raises (unexpected keyword argument, `in` applied to None);
`attributeError` is a failed attribute lookup; `unrecognizedMode` embeds
clap.errors.UnrecognizedModeError. -/
inductive PyError where
  | typeError (msg : String)
  | attributeError (name : String)
  | unrecognizedMode (mode : String)
  deriving Repr, DecidableEq

/-- src/clap/option.py, class Option: the stored `meta` dictionary. The source
calls the class Option; it is named COption here because Lean's core `Option`
is also needed in this file. `argument` holds the declared argument type
(None means the option is a flag). -/
structure COption where
  short : String
  long : String
  argument : Option String
  required : Bool
  requires : List String
  needs : List String
  not_with : List String
  conflicts : List String
  deriving Repr, DecidableEq

/-- src/clap/option.py lines 51-66, Option.__init__: raises TypeError when
neither short nor long is given, or when long is non-empty and shorter than
two characters; otherwise stores short prefixed with one hyphen and long
prefixed with two hyphens (an empty name is left empty: the `if short:` /
`if long:` guards skip the prefixing). -/
def COption.init (short long : String) (argument : Option String)
    (requires needs : List String) (required : Bool)
    (not_with conflicts : List String) : Except PyError COption :=
  if short = "" ∧ long = "" then
    Except.error (PyError.typeError "neither short nor long variant was specified")
  else if long.length < 2 ∧ long ≠ "" then
    Except.error (PyError.typeError "long option name must be two or more characters")
  else
    Except.ok { short := if short ≠ "" then "-" ++ short else short,
                long := if long ≠ "" then "--" ++ long else long,
                argument := argument, required := required, requires := requires,
                needs := needs, not_with := not_with, conflicts := conflicts }

/-- src/clap/option.py lines 86-92, Option.match: `s == self['short'] or
s == self['long']`. Named matchOpt because `match` is a Lean keyword. -/
def COption.matchOpt (o : COption) (s : String) : Bool :=
  s == o.short || s == o.long

/-- src/clap/option.py lines 94-99, Option.type: returns the stored argument
type; None indicates no argument. -/
def COption.type (o : COption) : Option String :=
  o.argument

/-- src/clap/option.py lines 80-84, Option.__str__: the long form if present,
else the short form, else the empty string. -/
def COption.str (o : COption) : String :=
  if o.long ≠ "" then o.long else if o.short ≠ "" then o.short else ""

/-- Modelled from the spec: clap.shared is not under src/. Section 6 names "a
helper predicate that classifies a token as 'looks like an option'
(hyphen-prefixed)": true exactly when the token's first character is a
hyphen. -/
def lookslikeopt (s : String) : Bool :=
  s.toList.head? == some '-'

/-- A string with a "-" glued in front of it looks like an option. -/
theorem lookslikeopt_hyphen (x : String) : lookslikeopt ("-" ++ x) = true := by
  simp [lookslikeopt, String.toList, String.data_append]

/-- A string with a "--" glued in front of it looks like an option. -/
theorem lookslikeopt_hyphens (x : String) : lookslikeopt ("--" ++ x) = true := by
  simp [lookslikeopt, String.toList, String.data_append]

/-- The option stored by a successful `COption.init short long _ _ _ _ _ _`:
its short form is empty when `short` is empty and "-" ++ short otherwise, and
symmetrically for long with "--". -/
theorem COption.init_ok_shape (short long : String) (argument : Option String)
    (requires needs : List String) (required : Bool)
    (not_with conflicts : List String) (o : COption)
    (hok : COption.init short long argument requires needs required not_with conflicts
      = Except.ok o) :
    o.short = (if short = "" then "" else "-" ++ short) ∧
    o.long = (if long = "" then "" else "--" ++ long) := by
  unfold COption.init at hok
  split_ifs at hok with h1 h2 h3 h4 <;>
    first
      | exact (Except.noConfusion hok)
      | (injection hok with hok; subst hok; constructor <;> simp_all)

/-- The option built by `Option(short='v')`: short stored as "-v", long left
empty. -/
def c6Opt : COption :=
  { short := "-v", long := "", argument := none, required := false,
    requires := [], needs := [], not_with := [], conflicts := [] }

/-- Claim C6, counterexample: for the Option constructed with short "v" and no
long form, the empty token — which does not carry a hyphen prefix — matches
(it equals the stored empty long form), so "a token lacking the hyphen prefix
never matches" fails for Options with an absent form. -/
theorem match_empty_token_counterexample :
    COption.init "v" "" none [] [] false [] [] = Except.ok c6Opt ∧
    c6Opt.matchOpt "" = true ∧ lookslikeopt "" = false := by
  refine ⟨rfl, rfl, rfl⟩

/-- Claim C6 (amended): for every successfully constructed Option,
match(token) is true iff the token equals the stored short form or the stored
long form; and every NON-EMPTY token lacking the hyphen prefix never matches.
(The empty token matches exactly when one of the two forms is absent, since
the absent form is stored as the empty string.) -/
theorem match_amended (short long : String) (argument : Option String)
    (requires needs : List String) (required : Bool)
    (not_with conflicts : List String) (o : COption) (s : String)
    (hok : COption.init short long argument requires needs required not_with conflicts
      = Except.ok o) :
    (o.matchOpt s = true ↔ (s = o.short ∨ s = o.long)) ∧
    (s ≠ "" → lookslikeopt s = false → o.matchOpt s = false) := by
  obtain ⟨hshort, hlong⟩ := COption.init_ok_shape short long argument
    requires needs required not_with conflicts o hok
  constructor
  · simp [COption.matchOpt]
  · intro hne hnl
    have hs : s ≠ o.short := by
      rw [hshort]
      by_cases h : short = ""
      · simpa [h] using hne
      · rw [if_neg h]
        intro hcon
        rw [hcon, lookslikeopt_hyphen] at hnl
        exact Bool.noConfusion hnl
    have hl : s ≠ o.long := by
      rw [hlong]
      by_cases h : long = ""
      · simpa [h] using hne
      · rw [if_neg h]
        intro hcon
        rw [hcon, lookslikeopt_hyphens] at hnl
        exact Bool.noConfusion hnl
    simp [COption.matchOpt, hs, hl]

/-- The option built by `Option(short='v', long='verbose')`. -/
def c6wOpt : COption :=
  { short := "-v", long := "--verbose", argument := none, required := false,
    requires := [], needs := [], not_with := [], conflicts := [] }

/-- Claim C6 amended theorem instantiated at the Option with short "v" and
long "verbose" and the token "-v". -/
theorem match_amended_witness :
    (c6wOpt.matchOpt "-v" = true ↔ ("-v" = c6wOpt.short ∨ "-v" = c6wOpt.long)) ∧
    ("-v" ≠ "" → lookslikeopt "-v" = false → c6wOpt.matchOpt "-v" = false) :=
  match_amended "v" "verbose" none [] [] false [] [] c6wOpt "-v" rfl

/-- The option built by `Option(long='ab')`: the empty short name is stored
as the empty string, not as a lone hyphen. -/
def c7Opt : COption :=
  { short := "", long := "--ab", argument := none, required := false,
    requires := [], needs := [], not_with := [], conflicts := [] }

/-- Claim C7, counterexample: Option construction with an empty short name
and long name "ab" succeeds and stores the short form as the empty string,
which is not "the given short name prefixed with one hyphen" ("-"). -/
theorem option_empty_short_counterexample :
    COption.init "" "ab" none [] [] false [] [] = Except.ok c7Opt ∧
    c7Opt.short = "" ∧ c7Opt.short ≠ "-" ++ "" := by
  refine ⟨rfl, rfl, by decide⟩

/-- Claim C7 (amended): construction raises a configuration error iff both
names are empty or the long name is non-empty and shorter than 2 characters;
on success, each GIVEN (non-empty) name is stored with its hyphen prefix
("-" short, "--" long) while an absent name is stored as the empty string. -/
theorem option_init_amended (short long : String) (argument : Option String)
    (requires needs : List String) (required : Bool)
    (not_with conflicts : List String) :
    ((∃ e, COption.init short long argument requires needs required not_with conflicts
        = Except.error e) ↔
      ((short = "" ∧ long = "") ∨ (long ≠ "" ∧ long.length < 2))) ∧
    (∀ o, COption.init short long argument requires needs required not_with conflicts
        = Except.ok o →
      o.short = (if short = "" then "" else "-" ++ short) ∧
      o.long = (if long = "" then "" else "--" ++ long)) := by
  constructor
  · unfold COption.init
    split_ifs with h1 h2
    · exact ⟨fun _ => Or.inl h1, fun _ => ⟨_, rfl⟩⟩
    · exact ⟨fun _ => Or.inr ⟨h2.2, h2.1⟩, fun _ => ⟨_, rfl⟩⟩
    · constructor
      · rintro ⟨e, he⟩
        exact he.elim
      · rintro (h | h)
        · exact absurd h h1
        · exact absurd ⟨h.2, h.1⟩ h2
  · intro o hok
    exact COption.init_ok_shape short long argument requires needs required
      not_with conflicts o hok

/-- Modelled from the spec: clap.base is not under src/. Section 6 describes
the base parser's option records as carried by the modes layer: modes.Parser
asks an option's declared type for "how many following tokens are its
arguments", taking `len` of the answer, so a declared option carries a LIST
of argument type names (empty for a flag), together with its already
hyphen-prefixed short and long forms and a help text (used by rendering). -/
structure BOption where
  short : String
  long : String
  arguments : List String
  help : String
  deriving Repr, DecidableEq

/-- A token names a declared base option when it equals its stored short or
long form exactly. -/
def BOption.matchTok (o : BOption) (s : String) : Bool :=
  s == o.short || s == o.long

/-- Modelled from the spec: clap.base is not under src/. Section 6: "a base
default-mode parser type offering feed, check, parse, get, getoperands, type,
option-append, and containment-test operations". Only the state and the
operations the modes layer depends on are modelled: the declared options and
the fed argument list. -/
structure Base where
  options : List BOption
  argv : List String
  deriving Repr, DecidableEq

/-- A fresh base parser: no options declared, nothing fed. -/
def Base.empty : Base :=
  { options := [], argv := [] }

/-- Base feed: stores the input token list. -/
def Base.feed (b : Base) (argv : List String) : Base :=
  { b with argv := argv }

/-- Base type query (section 4.2: "probe every registered sub-parser's option
set until one recognises the name, returning its declared argument type, or
an absent value if none recognise it", per sub-parser): the argument-type
list of the first declared option the token names, none when no option
matches. -/
def Base.type (b : Base) (s : String) : Option (List String) :=
  (b.options.find? (fun o => o.matchTok s)).map BOption.arguments

/-- Base containment test: some declared option is named by the token. -/
def Base.containsTok (b : Base) (s : String) : Bool :=
  b.options.any (fun o => o.matchTok s)

/-- Base option-append. -/
def Base.appendOpt (b : Base) (o : BOption) : Base :=
  { b with options := b.options ++ [o] }

/-- src/clap/modes.py, class Parser: the instance attributes its methods
assign. `_modes` is the registry dictionary (insertion-ordered, keys unique);
`parser` is the sub-parser chosen by define() (None before resolution);
`mode` embeds the `self.mode` attribute that only feed() and define() bind
(none models the attribute not yet existing). -/
structure Parser where
  _argv : List String
  _modes : List (String × Base)
  _mode : String
  default : String
  parser : Option Base
  _operands : List String
  mode : Option String
  deriving Repr, DecidableEq

/-- src/clap/modes.py lines 32-39, Parser.__init__: both arms of the `empty`
branch store the same fresh default registry, so the flag is dropped here. -/
def Parser.init (argv : List String) (default : String) : Parser :=
  { _argv := argv, _modes := [("", Base.empty)], _mode := "", default := default,
    parser := none, _operands := [], mode := none }

/-- src/clap/modes.py lines 49-54, Parser.feed. -/
def Parser.feed (p : Parser) (argv : List String) : Parser :=
  { p with _argv := argv, parser := none, mode := some "" }

/-- src/clap/modes.py lines 56-63, Parser._append: append the option to the
default sub-parser only (`local`), or to every registered sub-parser. -/
def Parser._append (p : Parser) (o : BOption) (isLocal : Bool) : Parser :=
  if isLocal then
    { p with _modes := p._modes.map (fun kv => if kv.1 = "" then (kv.1, kv.2.appendOpt o) else kv) }
  else
    { p with _modes := p._modes.map (fun kv => (kv.1, kv.2.appendOpt o)) }

/-- src/clap/modes.py lines 82-85, Parser.addMode: registers or overwrites a
named sub-parser (dict assignment: overwrite in place, else append). -/
def Parser.addMode (p : Parser) (name : String) (sub : Base) : Parser :=
  if p._modes.any (fun kv => kv.1 == name) then
    { p with _modes := p._modes.map (fun kv => if kv.1 = name then (kv.1, sub) else kv) }
  else
    { p with _modes := p._modes ++ [(name, sub)] }

/-- The keyword parameter names option.Option.__init__ accepts
(src/clap/option.py line 51). -/
def optionInitParams : List String :=
  ["self", "short", "long", "argument", "requires", "needs", "required",
   "not_with", "conflicts"]

/-- The keyword argument names Parser.addOption uses when it calls
option.Option (src/clap/modes.py lines 75-78). -/
def addOptionCallKeywords : List String :=
  ["short", "long", "help", "arguments", "requires", "wants", "required",
   "not_with", "conflicts"]

/-- Python call protocol: a keyword argument whose name is not a parameter of
the callee raises TypeError before the callee's body runs. -/
def pyKeywordCheck (callKws paramNames : List String) : Except PyError Unit :=
  match callKws.filter (fun k => !paramNames.contains k) with
  | [] => Except.ok ()
  | k :: _ =>
      Except.error (PyError.typeError ("unexpected keyword argument " ++ k))

/-- src/clap/modes.py lines 65-80, Parser.addOption: builds an Option through
`option.Option(short=..., long=..., help='', arguments=..., requires=...,
wants=..., required=..., not_with=..., conflicts=...)` and appends it via
_append. The call passes the keywords `help`, `arguments` and `wants`, which
option.Option.__init__ does not accept, so the interpreter's keyword check
fires first; the construction and append after it are unreachable (they
transcribe what the body would do if the keywords were accepted, with the
only value the old signature could receive for each parameter). -/
def Parser.addOption (p : Parser) (short long help : String)
    (arguments : List String) (requires wants : List String) (required : Bool)
    (not_with conflicts : List String) (isLocal : Bool) :
    Except PyError (Parser × COption) := do
  _ ← pyKeywordCheck addOptionCallKeywords optionInitParams
  let new ← COption.init short long none requires wants required not_with conflicts
  let bopt : BOption := { short := short, long := long, arguments := arguments, help := help }
  Except.ok (p._append bopt isLocal, new)

/-- src/clap/modes.py lines 87-90, Parser.has: reads `self.modes`, an
attribute no method of the class ever assigns (the registry is stored under
`_modes`), so the attribute lookup raises AttributeError before the
containment test can run. -/
def parserAssignedAttrs : List String :=
  ["_argv", "_modes", "_mode", "default", "parser", "_operands", "mode"]

/-- Parser.has: the lookup of `self.modes` against the attributes the class
assigns; the containment test on the looked-up value is unreachable. -/
def Parser.has (p : Parser) (m : String) : Except PyError Bool :=
  if parserAssignedAttrs.contains "modes" then
    Except.ok (p._modes.any (fun kv => kv.1 == m))
  else
    Except.error (PyError.attributeError "modes")

/-- src/clap/modes.py lines 41-45, Parser.__contains__: `option in
self.parser`. When define() has not yet run, self.parser is None and Python's
`in` on None raises TypeError; after resolution the chosen sub-parser alone
is consulted. -/
def Parser.containsOp (p : Parser) (name : String) : Except PyError Bool :=
  match p.parser with
  | some b => Except.ok (b.containsTok name)
  | none => Except.error (PyError.typeError "argument of type NoneType is not iterable")

/-- src/clap/modes.py lines 160-171, Parser.type: with a resolved sub-parser,
delegate to it; otherwise probe each registered sub-parser in order — the
inner loop re-queries the same sub-parser once per declared option, which
amounts to querying it once when it has any option and skipping it when it
has none — stopping at the first non-None answer. -/
def Parser.typeProbe (s : String) : List (String × Base) → Option (List String)
  | [] => none
  | kv :: rest =>
    match (if kv.2.options.isEmpty then none else kv.2.type s) with
    | some t => some t
    | none => Parser.typeProbe s rest

/-- Parser.type, assembling the two branches of lines 160-171. -/
def Parser.type (p : Parser) (s : String) : Option (List String) :=
  match p.parser with
  | some b => b.type s
  | none => Parser.typeProbe s p._modes

/-- Python truthiness of `not self.type(...)` on line 109: None and the empty
list are falsy, a non-empty list is truthy. -/
def pyFalsy : Option (List String) → Bool
  | none => true
  | some [] => true
  | some (_ :: _) => false

/-- src/clap/modes.py lines 92-115, Parser._modeindex's while loop, embedded
with the loop's index as an argument and an explicit bound on the number of
iterations (each iteration advances `i` by at least one, so
`p._argv.length` iterations suffice; when the bound runs out `i` is already
past the end of the input and the loop would have stopped with -1). Stops at
a literal `--` (returns -1); an option-like token advances `i` by the length
of its declared argument-type list plus one; a non-option-like token is the
found mode index when it is first or the previous token's declared type is
falsy, and is stepped over otherwise. -/
def Parser.modeindexLoop (p : Parser) : Nat → Nat → Int
  | 0, _ => -1
  | fuel + 1, i =>
    if i < p._argv.length then
      let item := p._argv.getD i ""
      if item = "--" then -1
      else if lookslikeopt item then
        let n := match p.type item with
          | some args => args.length
          | none => 0
        Parser.modeindexLoop p fuel (i + n + 1)
      else if i = 0 ∨ pyFalsy (p.type (p._argv.getD (i - 1) "")) then
        (i : Int)
      else
        Parser.modeindexLoop p fuel (i + 1)
    else -1

/-- src/clap/modes.py lines 92-115, Parser._modeindex: the loop started at
index 0. -/
def Parser._modeindex (p : Parser) : Int :=
  Parser.modeindexLoop p p._argv.length 0

/-- src/clap/modes.py lines 117-133, Parser.define: run the scan; a found
index names the mode and exactly that one token is removed, otherwise the
configured default is used and nothing is removed; an unregistered resolved
name raises UnrecognizedModeError before any assignment, which the pair
result captures by returning the receiver unchanged next to the error. On
success the resolved sub-parser is fed the remaining tokens and recorded. -/
def Parser.define (p : Parser) : Parser × Except PyError String :=
  let index := p._modeindex
  let mode := if index > -1 then p._argv.getD index.toNat "" else p.default
  let idx : Nat := if index > -1 then index.toNat else 0
  let n : Nat := if index > -1 then 1 else 0
  match p._modes.find? (fun kv => kv.1 == mode) with
  | none => (p, Except.error (PyError.unrecognizedMode mode))
  | some kv =>
    let input := p._argv.take idx ++ p._argv.drop (idx + n)
    ({ p with parser := some (kv.2.feed input), mode := some mode }, Except.ok mode)

/-- Claim C1 (the code evaluated at the failing input, over every input):
every call of Parser.addOption raises TypeError, because the call site in
modes.py passes the keyword arguments help, arguments and wants while
option.Option.__init__ in option.py accepts argument and needs instead; the
interpreter rejects the first unexpected keyword before the option is built,
so nothing is appended to any sub-parser and no Option is returned. -/
theorem addOption_always_raises (p : Parser) (short long help : String)
    (arguments requires wants : List String) (required : Bool)
    (not_with conflicts : List String) (isLocal : Bool) :
    Parser.addOption p short long help arguments requires wants required
        not_with conflicts isLocal
      = Except.error (PyError.typeError "unexpected keyword argument help") := rfl

/-- The sub-parser of the claim C2 scenario: one declared option, --log,
taking exactly one argument. -/
def c2Base : Base :=
  { options := [{ short := "", long := "--log", arguments := ["str"], help := "" }],
    argv := [] }

/-- The claim C2 scenario: the token list
["--log", "file.log", "bar", "--hello-world"] fed to a mode parser whose
registry declares --log with one argument. -/
def c2Parser : Parser :=
  { _argv := ["--log", "file.log", "bar", "--hello-world"],
    _modes := [("", c2Base)], _mode := "", default := "",
    parser := none, _operands := [], mode := none }

/-- Claim C2, counterexample: on the stated four-token list the mode-index
scan returns 2, not the claimed 3 — the token "bar" sits at index 2 of the
list ["--log", "file.log", "bar", "--hello-world"]. -/
theorem modeindex_counterexample :
    Parser._modeindex c2Parser = 2 ∧ (2 : Int) ≠ 3 := by decide

/-- Claim C2 (amended): the mode-index scan returns 2, which is the index of
the token "bar" in the four-token list, and in particular does not return 1,
the index of "file.log" (the argument of --log is skipped). -/
theorem modeindex_bar_index :
    Parser._modeindex c2Parser = 2 ∧ c2Parser._argv.getD 2 "" = "bar" ∧
    c2Parser._argv.getD 1 "" = "file.log" ∧ Parser._modeindex c2Parser ≠ 1 := by
  decide

/-- Claim C8: when the resolved mode token is not a key of the registry,
define raises UnrecognizedModeError and the parser state is returned
unchanged: nothing is consumed from the pending token list, no sub-parser is
selected, and no sub-parser is fed. -/
theorem define_unrecognized (p : Parser) (name : String)
    (hname : name = (if p._modeindex > -1 then p._argv.getD p._modeindex.toNat ""
      else p.default))
    (hreg : ∀ kv ∈ p._modes, kv.1 ≠ name) :
    Parser.define p = (p, Except.error (PyError.unrecognizedMode name)) := by
  have hfind : p._modes.find? (fun kv => kv.1 == name) = none := by
    apply List.find?_eq_none.mpr
    intro kv hkv
    simp [hreg kv hkv]
  subst hname
  unfold Parser.define
  simp only [hfind]

/-- The input of claim C8's witness: the token "foo" resolves as the mode
name and is not registered. -/
def c8Parser : Parser :=
  { _argv := ["foo"], _modes := [("", Base.empty)], _mode := "", default := "",
    parser := none, _operands := [], mode := none }

/-- Claim C8 instantiated: defining against ["foo"] with an empty registry
raises the unrecognised-mode error for "foo" and leaves the parser as it
was. -/
theorem define_unrecognized_witness :
    Parser.define c8Parser = (c8Parser, Except.error (PyError.unrecognizedMode "foo")) :=
  define_unrecognized c8Parser "foo" (by decide) (by decide)

/-- Claim C9 (the code evaluated at the failing input, generally): before
define() has resolved a sub-parser, the containment test raises TypeError
(Python's `in` applied to None) instead of returning a boolean answer drawn
from the registered sub-parsers, contradicting the method's own docstring. -/
theorem contains_before_define (p : Parser) (s : String) (h : p.parser = none) :
    Parser.containsOp p s
      = Except.error (PyError.typeError "argument of type NoneType is not iterable") := by
  simp [Parser.containsOp, h]

/-- Claim C9's theorem instantiated at a freshly constructed parser and the
token "-v". -/
theorem contains_before_define_witness :
    Parser.containsOp (Parser.init [] "") "-v"
      = Except.error (PyError.typeError "argument of type NoneType is not iterable") :=
  contains_before_define (Parser.init [] "") "-v" rfl

/-- Claim C10: Parser.has always raises AttributeError, for every parser
state and every queried mode name, because it reads the attribute `modes`
while the registry is assigned under `_modes` and no method of the class
ever binds `modes`. -/
theorem has_raises_attributeerror (p : Parser) (m : String) :
    Parser.has p m = Except.error (PyError.attributeError "modes") := rfl

/-! The word-wrapping part of src/clap/helper.py. Python strings are embedded
here as `List Char`: makelines splits on single spaces, measures lengths and
concatenates, and these are plain list operations. -/

/-- Python's `s.split(' ')` on a list of characters: the maximal (possibly
empty) chunks between single space characters; the empty string splits into
one empty word. -/
def pysplit : List Char → List (List Char)
  | [] => [[]]
  | c :: rest =>
    match pysplit rest with
    | [] => [[]]
    | w :: ws => if c = ' ' then [] :: w :: ws else (c :: w) :: ws

/-- Words joined by single spaces (the inverse of pysplit). -/
def joinSpace : List (List Char) → List Char
  | [] => []
  | [w] => w
  | w :: x :: ws => w ++ ' ' :: joinSpace (x :: ws)

/-- Trailing space padding removed. -/
def trimTrailing (l : List Char) : List Char :=
  (l.reverse.dropWhile (fun c => c = ' ')).reverse

/-- src/clap/helper.py lines 14-31, the while loop of makelines, embedded on
the remaining word list with the accumulated current line and emitted lines,
and with explicit fuel: the loop is genuinely partial — when a word longer
than `maxlen - 1` is at the head and the current line is empty, the else
branch appends the empty line and retries the same word forever — and `none`
embeds that non-termination. A word that fits (`len(line + word) <=
maxlen - 1`) is appended to the line followed by one space; otherwise the
line (with its trailing padding) is emitted and the same word is retried on
an empty line; the final partial line is emitted when non-empty. -/
def makelinesAux (maxlen : Int) :
    Nat → List (List Char) → List Char → List (List Char) → Option (List (List Char))
  | 0, _, _, _ => none
  | _ + 1, [], line, acc => some (acc ++ if line = [] then [] else [line])
  | fuel + 1, w :: ws, line, acc =>
    if (line.length + w.length : Int) ≤ maxlen - 1 then
      makelinesAux maxlen fuel ws (line ++ w ++ [' ']) acc
    else
      makelinesAux maxlen fuel (w :: ws) [] (acc ++ [line])

/-- src/clap/helper.py lines 14-31, makelines: split the string on spaces and
run the packing loop on the word list with an empty line. -/
def makelines (s : List Char) (maxlen : Int) (fuel : Nat) : Option (List (List Char)) :=
  makelinesAux maxlen fuel (pysplit s) [] []

/-- The raw text of a line holding the word group `g`: every word followed by
one space, as the loop builds it. -/
def lineOf : List (List Char) → List Char
  | [] => []
  | w :: g => w ++ ' ' :: lineOf g

/-- The terminating greedy packing makelinesAux computes when every word
fits: group words into lines, starting a new group when the line so far plus
the next word would pass `maxlen - 1`. -/
def wrapGroups (maxlen : Int) : List (List Char) → List (List Char) → List (List (List Char))
  | [], g => if g = [] then [] else [g]
  | w :: ws, g =>
    if ((lineOf g).length + w.length : Int) ≤ maxlen - 1 then
      wrapGroups maxlen ws (g ++ [w])
    else
      g :: wrapGroups maxlen ws [w]

/-- The word groups of a group list, concatenated back into one word list. -/
def catGroups : List (List (List Char)) → List (List Char)
  | [] => []
  | g :: gs => g ++ catGroups gs

/-- lineOf distributes over group concatenation. -/
theorem lineOf_append (a b : List (List Char)) :
    lineOf (a ++ b) = lineOf a ++ lineOf b := by
  induction a with
  | nil => rfl
  | cons w a ih => simp [lineOf, ih]

/-- A line is empty exactly when its word group is. -/
theorem lineOf_eq_nil_iff (g : List (List Char)) : lineOf g = [] ↔ g = [] := by
  cases g with
  | nil => simp [lineOf]
  | cons w g => simp [lineOf]

/-- pysplit never returns the empty word list. -/
theorem pysplit_ne_nil (s : List Char) : pysplit s ≠ [] := by
  cases s with
  | nil => simp [pysplit]
  | cons c rest =>
    unfold pysplit
    cases pysplit rest with
    | nil => simp
    | cons w ws =>
      dsimp only
      split <;> simp

/-- Splitting and rejoining on single spaces is the identity. -/
theorem joinSpace_pysplit (s : List Char) : joinSpace (pysplit s) = s := by
  induction s with
  | nil => rfl
  | cons c rest ih =>
    cases hr : pysplit rest with
    | nil => exact absurd hr (pysplit_ne_nil rest)
    | cons w ws =>
      rw [hr] at ih
      have hsplit : pysplit (c :: rest)
          = if c = ' ' then [] :: w :: ws else (c :: w) :: ws := by
        unfold pysplit
        rw [hr]
      by_cases hc : c = ' '
      · rw [hsplit, if_pos hc, show joinSpace ([] :: w :: ws)
          = ' ' :: joinSpace (w :: ws) from rfl, ih, hc]
      · rw [hsplit, if_neg hc]
        cases ws with
        | nil => rw [show joinSpace [c :: w] = c :: w from rfl, ← ih]; rfl
        | cons x t =>
          rw [show joinSpace ((c :: w) :: x :: t)
            = c :: (w ++ ' ' :: joinSpace (x :: t)) from rfl]
          rw [show (w ++ ' ' :: joinSpace (x :: t)) = joinSpace (w :: x :: t) from rfl, ih]

/-- No word produced by pysplit contains a space. -/
theorem pysplit_no_space (s : List Char) : ∀ w ∈ pysplit s, ' ' ∉ w := by
  induction s with
  | nil => intro w hw; simp [pysplit] at hw; simp [hw]
  | cons c rest ih =>
    intro w hw
    cases hr : pysplit rest with
    | nil => exact absurd hr (pysplit_ne_nil rest)
    | cons v vs =>
      have hsplit : pysplit (c :: rest)
          = if c = ' ' then [] :: v :: vs else (c :: v) :: vs := by
        unfold pysplit
        rw [hr]
      rw [hsplit] at hw
      have hv : ∀ u ∈ v :: vs, ' ' ∉ u := by rw [← hr]; exact ih
      by_cases hc : c = ' '
      · rw [if_pos hc] at hw
        simp only [List.mem_cons] at hw
        rcases hw with hw | hw | hw
        · simp [hw]
        · exact hv w (by simp [hw])
        · exact hv w (by simp [hw])
      · rw [if_neg hc] at hw
        simp only [List.mem_cons] at hw
        rcases hw with hw | hw
        · subst hw
          intro hmem
          rcases List.mem_cons.mp hmem with h | h
          · exact hc h.symm
          · exact hv v (by simp) h
        · exact hv w (by simp [hw])

/-- Unfolding makelinesAux with fuel left and no words left. -/
theorem makelinesAux_nil (maxlen : Int) (f : Nat) (line : List Char)
    (acc : List (List Char)) :
    makelinesAux maxlen (f + 1) [] line acc
      = some (acc ++ if line = [] then [] else [line]) := rfl

/-- Unfolding makelinesAux with fuel left on a word. -/
theorem makelinesAux_cons (maxlen : Int) (f : Nat) (w : List Char)
    (ws : List (List Char)) (line : List Char) (acc : List (List Char)) :
    makelinesAux maxlen (f + 1) (w :: ws) line acc
      = if (line.length + w.length : Int) ≤ maxlen - 1 then
          makelinesAux maxlen f ws (line ++ w ++ [' ']) acc
        else
          makelinesAux maxlen f (w :: ws) [] (acc ++ [line]) := rfl

/-- Unfolding wrapGroups on no words. -/
theorem wrapGroups_nil (maxlen : Int) (g : List (List Char)) :
    wrapGroups maxlen [] g = if g = [] then [] else [g] := rfl

/-- Unfolding wrapGroups on a word. -/
theorem wrapGroups_cons (maxlen : Int) (w : List Char) (ws g : List (List Char)) :
    wrapGroups maxlen (w :: ws) g
      = if ((lineOf g).length + w.length : Int) ≤ maxlen - 1 then
          wrapGroups maxlen ws (g ++ [w])
        else
          g :: wrapGroups maxlen ws [w] := rfl

/-- When every word fits in `maxlen - 1`, the fueled loop terminates (with
fuel at least twice the word count plus one) and computes exactly the greedy
grouping: each emitted line is the rendered text of one group. -/
theorem makelinesAux_eq_wrapGroups (maxlen : Int) (words : List (List Char)) :
    ∀ (g acc : List (List Char)) (fuel : Nat),
      2 * words.length + 1 ≤ fuel →
      (∀ w ∈ words, (w.length : Int) ≤ maxlen - 1) →
      makelinesAux maxlen fuel words (lineOf g) acc
        = some (acc ++ (wrapGroups maxlen words g).map lineOf) := by
  induction words with
  | nil =>
    intro g acc fuel hfuel _
    obtain ⟨f, rfl⟩ : ∃ f, fuel = f + 1 := ⟨fuel - 1, by omega⟩
    rw [makelinesAux_nil, wrapGroups_nil]
    by_cases hg : g = []
    · simp [hg, lineOf]
    · have hlg : lineOf g ≠ [] := fun h => hg ((lineOf_eq_nil_iff g).mp h)
      rw [if_neg hg, if_neg hlg]
      simp
  | cons w ws ih =>
    intro g acc fuel hfuel hfit
    obtain ⟨f, rfl⟩ : ∃ f, fuel = f + 1 := ⟨fuel - 1, by omega⟩
    have hwfit : (w.length : Int) ≤ maxlen - 1 := hfit w (by simp)
    have hfit' : ∀ u ∈ ws, (u.length : Int) ≤ maxlen - 1 :=
      fun u hu => hfit u (by simp [hu])
    have hlen : 2 * ws.length + 3 ≤ f + 1 := by
      simpa [List.length_cons, Nat.mul_add] using hfuel
    by_cases hcond : ((lineOf g).length + w.length : Int) ≤ maxlen - 1
    · have hlin : lineOf g ++ w ++ [' '] = lineOf (g ++ [w]) := by
        rw [lineOf_append]
        simp [lineOf, List.append_assoc]
      rw [makelinesAux_cons, if_pos hcond, hlin,
        ih (g ++ [w]) acc f (by omega) hfit', wrapGroups_cons, if_pos hcond]
    · rw [makelinesAux_cons, if_neg hcond]
      obtain ⟨f2, rfl⟩ : ∃ f2, f = f2 + 1 := ⟨f - 1, by omega⟩
      rw [makelinesAux_cons]
      have hc0 : ((([] : List Char).length : Int) + (w.length : Int)) ≤ maxlen - 1 := by
        simpa using hwfit
      rw [if_pos hc0]
      have h1 : ([] : List Char) ++ w ++ [' '] = lineOf [w] := by simp [lineOf]
      rw [h1, ih [w] (acc ++ [lineOf g]) f2 (by omega) hfit',
        wrapGroups_cons, if_neg hcond]
      simp [List.append_assoc]

/-- The greedy grouping loses and duplicates no word: concatenating the
groups gives back the open group followed by the remaining words. -/
theorem catGroups_wrapGroups (maxlen : Int) (words : List (List Char)) :
    ∀ g, catGroups (wrapGroups maxlen words g) = g ++ words := by
  induction words with
  | nil =>
    intro g
    rw [wrapGroups_nil]
    by_cases hg : g = []
    · simp [hg, catGroups]
    · simp [if_neg hg, catGroups]
  | cons w ws ih =>
    intro g
    rw [wrapGroups_cons]
    by_cases hcond : ((lineOf g).length + w.length : Int) ≤ maxlen - 1
    · rw [if_pos hcond, ih (g ++ [w])]
      simp
    · rw [if_neg hcond]
      show g ++ catGroups (wrapGroups maxlen ws [w]) = _
      rw [ih [w]]
      simp

/-- The good-group invariant the greedy loop maintains for its open group:
either the group is still empty, or it is non-empty, all its words are
non-empty and space-free, and its rendered line fits in maxlen. -/
def goodGroup (maxlen : Int) (g : List (List Char)) : Prop :=
  g = [] ∨ (g ≠ [] ∧ (∀ w ∈ g, w ≠ [] ∧ ' ' ∉ w) ∧ ((lineOf g).length : Int) ≤ maxlen)

/-- Rendered line length of a group extended by one word. -/
theorem lineOf_append_word (g : List (List Char)) (w : List Char) :
    (lineOf (g ++ [w])).length = (lineOf g).length + w.length + 1 := by
  rw [lineOf_append]
  simp [lineOf]
  omega

/-- When every remaining word is non-empty, space-free and fits in
`maxlen - 1`, and the open group is good, every group the greedy loop emits
is non-empty, made of non-empty space-free words, and renders to a line of at
most maxlen characters. -/
theorem wrapGroups_good (maxlen : Int) (words : List (List Char)) :
    ∀ g, (∀ w ∈ words, w ≠ [] ∧ ' ' ∉ w ∧ (w.length : Int) ≤ maxlen - 1) →
      goodGroup maxlen g →
      ∀ grp ∈ wrapGroups maxlen words g,
        grp ≠ [] ∧ (∀ w ∈ grp, w ≠ [] ∧ ' ' ∉ w) ∧ ((lineOf grp).length : Int) ≤ maxlen := by
  induction words with
  | nil =>
    intro g _ hg grp hgrp
    rw [wrapGroups_nil] at hgrp
    by_cases hge : g = []
    · rw [if_pos hge] at hgrp
      exact absurd hgrp (List.not_mem_nil grp)
    · rw [if_neg hge] at hgrp
      have : grp = g := by simpa using hgrp
      subst this
      rcases hg with hg | hg
      · exact absurd hg hge
      · exact ⟨hg.1, hg.2.1, hg.2.2⟩
  | cons w ws ih =>
    intro g hfit hg grp hgrp
    have hwgood := hfit w (by simp)
    have hfit' : ∀ u ∈ ws, u ≠ [] ∧ ' ' ∉ u ∧ (u.length : Int) ≤ maxlen - 1 :=
      fun u hu => hfit u (by simp [hu])
    rw [wrapGroups_cons] at hgrp
    by_cases hcond : ((lineOf g).length + w.length : Int) ≤ maxlen - 1
    · rw [if_pos hcond] at hgrp
      refine ih (g ++ [w]) hfit' ?_ grp hgrp
      refine Or.inr ⟨by simp, ?_, ?_⟩
      · intro u hu
        rcases List.mem_append.mp hu with hu | hu
        · rcases hg with hge | hgood
          · rw [hge] at hu
            exact absurd hu (List.not_mem_nil u)
          · exact hgood.2.1 u hu
        · have : u = w := by simpa using hu
          subst this
          exact ⟨hwgood.1, hwgood.2.1⟩
      · rw [lineOf_append_word]
        push_cast
        omega
    · rw [if_neg hcond] at hgrp
      have hgne : g ≠ [] := by
        intro hge
        apply hcond
        rw [hge]
        simpa [lineOf] using hwgood.2.2
      rcases List.mem_cons.mp hgrp with hgrp | hgrp
      · subst hgrp
        rcases hg with hge | hgood
        · exact absurd hge hgne
        · exact ⟨hgood.1, hgood.2.1, hgood.2.2⟩
      · refine ih [w] hfit' ?_ grp hgrp
        refine Or.inr ⟨by simp, ?_, ?_⟩
        · intro u hu
          have : u = w := by simpa using hu
          subst this
          exact ⟨hwgood.1, hwgood.2.1⟩
        · have h2 := hwgood.2.2
          simp only [lineOf]
          simp
          omega

/-- A non-empty group's rendered line is its words joined by single spaces
followed by the one trailing padding space. -/
theorem lineOf_eq_joinSpace (g : List (List Char)) (hg : g ≠ []) :
    lineOf g = joinSpace g ++ [' '] := by
  induction g with
  | nil => exact absurd rfl hg
  | cons w g ih =>
    cases g with
    | nil => simp [lineOf, joinSpace]
    | cons x t =>
      rw [show lineOf (w :: x :: t) = w ++ ' ' :: lineOf (x :: t) from rfl,
        ih (by simp),
        show joinSpace (w :: x :: t) = w ++ ' ' :: joinSpace (x :: t) from rfl]
      simp

/-- Join of a non-empty group is non-empty when its first word is (and in the
multi-word case unconditionally). -/
theorem joinSpace_ne_nil (g : List (List Char)) (hg : g ≠ [])
    (hw : ∀ w ∈ g, w ≠ []) : joinSpace g ≠ [] := by
  cases g with
  | nil => exact absurd rfl hg
  | cons w g =>
    cases g with
    | nil => simpa [joinSpace] using hw w (by simp)
    | cons x t => simp [joinSpace]

/-- Removing the trailing padding space. -/
theorem trimTrailing_append_space (x : List Char) :
    trimTrailing (x ++ [' ']) = trimTrailing x := by
  unfold trimTrailing
  rw [List.reverse_append]
  simp [List.dropWhile_cons]

/-- A list that does not end in a space is unchanged by trailing-space
trimming. -/
theorem trimTrailing_eq_self (l : List Char) (h : l.getLast? ≠ some ' ') :
    trimTrailing l = l := by
  cases hrev : l.reverse with
  | nil =>
    have : l = [] := by simpa using congrArg List.reverse hrev
    simp [this, trimTrailing]
  | cons c r =>
    have hc : c ≠ ' ' := by
      intro hcc
      apply h
      rw [← List.head?_reverse, hrev, hcc]
      rfl
    unfold trimTrailing
    rw [hrev, List.dropWhile_cons, if_neg (by simp [hc])]
    rw [← hrev, List.reverse_reverse]

/-- The space-joined text of a group of non-empty space-free words does not
end in a space. -/
theorem getLast?_joinSpace (g : List (List Char)) (hg : g ≠ [])
    (hw : ∀ w ∈ g, w ≠ [] ∧ ' ' ∉ w) : (joinSpace g).getLast? ≠ some ' ' := by
  induction g with
  | nil => exact absurd rfl hg
  | cons w g ih =>
    cases g with
    | nil =>
      intro h
      have hmem : ' ' ∈ w.reverse := List.mem_of_mem_head? (by
        rw [List.head?_reverse]
        simpa [joinSpace] using h)
      exact (hw w (by simp)).2 (List.mem_reverse.mp hmem)
    | cons x t =>
      have hjs : joinSpace (x :: t) ≠ [] :=
        joinSpace_ne_nil (x :: t) (by simp) (fun u hu => (hw u (by simp [hu])).1)
      rw [show joinSpace (w :: x :: t) = w ++ ' ' :: joinSpace (x :: t) from rfl]
      rw [List.getLast?_append_of_ne_nil w (by simp)]
      cases hj : joinSpace (x :: t) with
      | nil => exact absurd hj hjs
      | cons y ty =>
        rw [List.getLast?_cons_cons, ← hj]
        exact ih (by simp) (fun u hu => hw u (by simp [hu]))

/-- Trimming the rendered line of a good group yields exactly its words
joined by single spaces. -/
theorem trim_lineOf (g : List (List Char)) (hg : g ≠ [])
    (hw : ∀ w ∈ g, w ≠ [] ∧ ' ' ∉ w) :
    trimTrailing (lineOf g) = joinSpace g := by
  rw [lineOf_eq_joinSpace g hg, trimTrailing_append_space,
    trimTrailing_eq_self _ (getLast?_joinSpace g hg hw)]

/-- joinSpace on a cons with a non-empty tail. -/
theorem joinSpace_cons_of_ne_nil (w : List Char) (l : List (List Char))
    (hl : l ≠ []) : joinSpace (w :: l) = w ++ ' ' :: joinSpace l := by
  cases l with
  | nil => exact absurd rfl hl
  | cons x t => rfl

/-- joinSpace distributes over appending two non-empty group lists, inserting
one space at the seam. -/
theorem joinSpace_append (a b : List (List Char)) (ha : a ≠ []) (hb : b ≠ []) :
    joinSpace (a ++ b) = joinSpace a ++ ' ' :: joinSpace b := by
  induction a with
  | nil => exact absurd rfl ha
  | cons x a ih =>
    cases a with
    | nil =>
      rw [show ([x] : List (List Char)) ++ b = x :: b from rfl,
        joinSpace_cons_of_ne_nil x b hb]
      rfl
    | cons y t =>
      rw [show (x :: y :: t) ++ b = x :: ((y :: t) ++ b) from rfl,
        joinSpace_cons_of_ne_nil x ((y :: t) ++ b) (by simp),
        ih (by simp),
        joinSpace_cons_of_ne_nil x (y :: t) (by simp)]
      simp

/-- Joining each group internally and then joining the group texts equals
joining the full concatenated word sequence, for non-empty groups. -/
theorem joinSpace_map_cat (gs : List (List (List Char)))
    (hne : ∀ g ∈ gs, g ≠ []) :
    joinSpace (gs.map joinSpace) = joinSpace (catGroups gs) := by
  induction gs with
  | nil => rfl
  | cons g gs ih =>
    cases gs with
    | nil =>
      show joinSpace [joinSpace g] = joinSpace (g ++ catGroups [])
      rw [show catGroups ([] : List (List (List Char))) = [] from rfl, List.append_nil]
      rfl
    | cons g2 t =>
      have hg : g ≠ [] := hne g (by simp)
      have hcat : catGroups (g2 :: t) ≠ [] := by
        show g2 ++ catGroups t ≠ []
        have : g2 ≠ [] := hne g2 (by simp)
        simp [this]
      rw [show catGroups (g :: g2 :: t) = g ++ catGroups (g2 :: t) from rfl,
        joinSpace_append g (catGroups (g2 :: t)) hg hcat,
        ← ih (fun u hu => hne u (by simp [hu])),
        show (g :: g2 :: t).map joinSpace
          = joinSpace g :: (g2 :: t).map joinSpace from rfl,
        joinSpace_cons_of_ne_nil _ _ (by simp)]

/-- Claim C3, counterexample: makelines("abcd", 5) terminates and produces
the single line "abcd " — the packed word plus its trailing padding space —
whose length is 5, exceeding the max width minus 1. -/
theorem makelines_line_overflow :
    makelines (String.toList "abcd") 5 10 = some [String.toList "abcd "] ∧
    ¬(((String.toList "abcd ").length : Int) ≤ 5 - 1) := by decide

/-- Claim C3 (amended): whenever every space-separated word of the input is
non-empty and fits in max width − 1 (the inputs on which makelines
terminates), every produced line has raw length at most the max width — the
lines carry one trailing padding space, so the claimed bound of max width − 1
holds only after trimming that padding — and rejoining the trimmed lines
with single spaces yields exactly the original string, hence the original
word sequence. -/
theorem makelines_wrap_correct (s : List Char) (maxlen : Int) (fuel : Nat)
    (hfit : ∀ w ∈ pysplit s, w ≠ [] ∧ (w.length : Int) ≤ maxlen - 1)
    (hfuel : 2 * (pysplit s).length + 1 ≤ fuel) :
    ∃ lines, makelines s maxlen fuel = some lines ∧
      (∀ l ∈ lines, (l.length : Int) ≤ maxlen ∧
        ((trimTrailing l).length : Int) ≤ maxlen - 1) ∧
      joinSpace (lines.map trimTrailing) = s := by
  have hgood : ∀ w ∈ pysplit s, w ≠ [] ∧ ' ' ∉ w ∧ (w.length : Int) ≤ maxlen - 1 :=
    fun w hw => ⟨(hfit w hw).1, pysplit_no_space s w hw, (hfit w hw).2⟩
  have hgrps := wrapGroups_good maxlen (pysplit s) [] hgood (Or.inl rfl)
  refine ⟨(wrapGroups maxlen (pysplit s) []).map lineOf, ?_, ?_, ?_⟩
  · have heq := makelinesAux_eq_wrapGroups maxlen (pysplit s) [] [] fuel hfuel
      (fun w hw => (hfit w hw).2)
    unfold makelines
    rw [show ([] : List Char) = lineOf [] from rfl, heq]
    rfl
  · intro l hl
    obtain ⟨grp, hgrp, rfl⟩ := List.mem_map.mp hl
    have hq := hgrps grp hgrp
    refine ⟨hq.2.2, ?_⟩
    rw [trim_lineOf grp hq.1 hq.2.1]
    have hlen : (lineOf grp).length = (joinSpace grp).length + 1 := by
      rw [lineOf_eq_joinSpace grp hq.1]
      simp
    have h2 := hq.2.2
    omega
  · rw [List.map_map]
    have hmap : (wrapGroups maxlen (pysplit s) []).map (trimTrailing ∘ lineOf)
        = (wrapGroups maxlen (pysplit s) []).map joinSpace := by
      apply List.map_congr_left
      intro grp hgrp
      have hq := hgrps grp hgrp
      exact trim_lineOf grp hq.1 hq.2.1
    rw [hmap, joinSpace_map_cat _ (fun g hg => (hgrps g hg).1),
      catGroups_wrapGroups maxlen (pysplit s) []]
    rw [List.nil_append]
    exact joinSpace_pysplit s

/-- Claim C3's amended theorem instantiated at the input "abc de" with max
width 7 and fuel 20. -/
theorem makelines_wrap_correct_witness :
    ∃ lines, makelines (String.toList "abc de") 7 20 = some lines ∧
      (∀ l ∈ lines, (l.length : Int) ≤ 7 ∧
        ((trimTrailing l).length : Int) ≤ 7 - 1) ∧
      joinSpace (lines.map trimTrailing) = String.toList "abc de" :=
  makelines_wrap_correct (String.toList "abc de") 7 20 (by decide) (by decide)

/-- Once a word longer than `maxlen - 1` heads the remaining words with an
empty current line, the loop keeps emitting the empty line and retrying the
same word: no amount of fuel reaches a result. -/
theorem makelinesAux_stuck (maxlen : Int) (w : List Char) (ws : List (List Char))
    (hw : ¬((w.length : Int) ≤ maxlen - 1)) :
    ∀ fuel acc, makelinesAux maxlen fuel (w :: ws) [] acc = none := by
  intro fuel
  induction fuel with
  | zero => intro acc; rfl
  | succ f ih =>
    intro acc
    rw [makelinesAux_cons, if_neg (by simpa using hw)]
    exact ih (acc ++ [[]])

/-- Claim C4 (the code evaluated at the failing input): on the ten-character
word "aaaaaaaaaa" with max width 5 the makelines loop never terminates —
for every iteration budget the embedded loop fails to produce a result —
because the word exceeds max width − 1 and the loop retries it forever on an
empty line, so help rendering does not run to completion on every input. -/
theorem makelines_diverges_on_long_word :
    ∀ fuel, makelines (String.toList "aaaaaaaaaa") 5 fuel = none := by
  intro fuel
  have hsplit : pysplit (String.toList "aaaaaaaaaa")
      = [String.toList "aaaaaaaaaa"] := by decide
  unfold makelines
  rw [hsplit]
  exact makelinesAux_stuck 5 (String.toList "aaaaaaaaaa") [] (by decide) fuel []

/-- Modelled from the spec: clap.mode is not under src/ (helper.py imports
it). Section 3, "Mode": an example record with an optional invocation line
and an optional description (an absent field embeds a missing key). -/
structure DocExample where
  line : Option String
  desc : Option String
  deriving Repr, DecidableEq

/-- Modelled from the spec: clap.mode is not under src/. Section 3, "Mode": a
declarative document with optional help, usage (list of lines) and examples.
Only the document fields the modelled help operations read are included; the
option scopes and sub-mode mapping of a full Mode are not consulted by the
usage-only and examples-only renderings. -/
structure Mode where
  helpDoc : String
  usageDoc : List String
  examplesDoc : List DocExample
  deriving Repr, DecidableEq

/-- Help-line tokens (section 3, "Help line tokens"): each accumulated line
is tagged plain-text or option-summary carrying its option. -/
inductive HLine where
  | str (text : String)
  | opt (text : String) (o : BOption)
  deriving Repr, DecidableEq

/-- src/clap/helper.py lines 85-92, Helper.__init__ state: program name,
target mode, indent unit (three spaces), max width (default 140), option
description start column, accumulated help-line tokens. -/
structure Helper where
  progname : String
  mode : Mode
  indentStr : String
  maxlen : Int
  opt_desc_start : Nat
  lines : List HLine
  deriving Repr, DecidableEq

/-- Helper construction. -/
def Helper.init (progname : String) (mode : Mode) : Helper :=
  { progname := progname, mode := mode, indentStr := "   ", maxlen := 140,
    opt_desc_start := 0, lines := [] }

/-- A run of n space characters. -/
def spaces (n : Nat) : String :=
  String.mk (List.replicate n ' ')

/-- src/clap/helper.py lines 126-138 (_genusage) as invoked by lines 190-194
(usage()): the first usage line follows the `usage: <progname> ` heading,
continuation lines are indented to align under it, and a blank separator is
appended when the accumulated lines are non-empty. -/
def Helper.usage (h : Helper) : Helper :=
  let head := "usage: " ++ h.progname ++ " "
  let ind := spaces head.length
  let ls := match h.mode.usageDoc with
    | [] => []
    | u0 :: rest => HLine.str (head ++ u0) :: rest.map (fun l => HLine.str (ind ++ l))
  let newLines := h.lines ++ ls
  { h with lines := newLines ++ (if newLines.isEmpty then [] else [HLine.str ""]) }

/-- The enumerate loop of _genexamples (src/clap/helper.py lines 108-115): an
entry with no line key is skipped (its index still counts); a line entry
renders `<indent><progname> <line>`; a present non-empty description adds a
doubly indented line and, when the entry is not the last, a blank
separator. -/
def exampleLines (indentStr progname : String) (total : Nat) :
    Nat → List DocExample → List HLine
  | _, [] => []
  | i, ex :: rest =>
    (match ex.line with
     | none => []
     | some ln =>
       HLine.str (indentStr ++ progname ++ " " ++ ln) ::
       (match ex.desc with
        | some d =>
          if d ≠ "" then
            HLine.str (indentStr ++ indentStr ++ d) ::
            (if i < total - 1 then [HLine.str ""] else [])
          else []
        | none => [])) ++ exampleLines indentStr progname total (i + 1) rest

/-- src/clap/helper.py lines 99-117 (_genexamples) as invoked by lines
196-200 (examples()): an `Examples:` header when any example exists, the
enumerated entries, and a blank separator when both the accumulated lines and
the block are non-empty. -/
def Helper.examples (h : Helper) : Helper :=
  let exs := h.mode.examplesDoc
  let ls := (if exs.isEmpty then [] else [HLine.str "Examples:"]) ++
    exampleLines h.indentStr h.progname exs.length 0 exs
  let l2 := h.lines ++ ls
  { h with lines := l2 ++ (if l2.isEmpty ∨ ls.isEmpty then [] else [HLine.str ""]) }

/-- An option-summary line in the final rendering pass (src/clap/helper.py
lines 254-257): padded with spaces to the computed start column, then
`- <help text>` when the option has help text. -/
def renderOptLine (start : Nat) (text : String) (o : BOption) : String :=
  (text ++ spaces (start - text.length)) ++
    (if o.help ≠ "" then "- " ++ o.help else "")

/-- Trailing empty lines removed (src/clap/helper.py lines 261-264). -/
def dropTrailingEmptyStr (ls : List String) : List String :=
  (ls.reverse.dropWhile (fun s => s = "")).reverse

/-- src/clap/helper.py lines 243-266, Helper.render: the first pass takes the
widest option-summary text plus two columns; the second pass pads option
lines to that column and appends their help text, passes plain lines
through (the unknown-tag error of the source cannot arise: HLine has exactly
the two built tags), strips trailing blank lines and joins with newlines. -/
def Helper.render (h : Helper) : String :=
  let start := 2 + h.lines.foldl (fun acc l =>
    match l with
    | HLine.opt t _ => if t.length > acc then t.length else acc
    | HLine.str _ => acc) h.opt_desc_start
  let rendered := h.lines.map (fun l =>
    match l with
    | HLine.str t => t
    | HLine.opt t o => renderOptLine start t o)
  String.intercalate "\n" (dropTrailingEmptyStr rendered)

/-- Modelled from the spec: the parsed-UI cursor (section 3) of the
unincluded clap.parser: "a navigable view over a parse result exposing
current mode name, containment tests for options, operand list, and stepping
operations to move up/down the mode tree". One view per mode of the resolved
path. -/
structure UIView where
  name : String
  present : List String
  operands : List String
  mode : Mode
  deriving Repr, DecidableEq

/-- The cursor position inside the path of views: the views above the
current one (nearest first), the current view, and the views below it
(nearest first). -/
structure UI where
  above : List UIView
  current : UIView
  below : List UIView
  deriving Repr, DecidableEq

/-- Stepping down one mode; on the last mode the cursor stays put. -/
def UI.down (u : UI) : UI :=
  match u.below with
  | [] => u
  | v :: rest => { above := u.current :: u.above, current := v, below := rest }

/-- Whether the cursor is on the last (deepest) mode. -/
def UI.islast (u : UI) : Bool :=
  u.below.isEmpty

/-- str(ui): the current mode name. -/
def UI.str (u : UI) : String :=
  u.current.name

/-- ui.top(): the cursor moved to the topmost mode of its path. -/
def UI.top (u : UI) : UI :=
  match u.above.reverse ++ u.current :: u.below with
  | [] => u
  | t :: rest => { above := [], current := t, below := rest }

/-- Option containment (`token in ui`): section 4.3 reads run()'s check as
the token being "present anywhere reachable", so the token is looked up in
the current view and every view below it. -/
def UI.containsTok (u : UI) (t : String) : Bool :=
  (u.current :: u.below).any (fun v => v.present.contains t)

/-- src/clap/helper.py lines 269-283, HelpRunner.__init__ configuration:
cursor, program name, the help-triggering option tokens, the help command
names, and the ignorable leading mode names. -/
structure HelpRunner where
  ui : UI
  program_name : String
  options : List String
  commands : List String
  ignorecmds : List String
  deriving Repr, DecidableEq

/-- HelpRunner construction with the default trigger lists. -/
def HelpRunner.init (ui : UI) (program : String) : HelpRunner :=
  { ui := ui, program_name := program, options := ["-h", "--help"],
    commands := ["help"], ignorecmds := [""] }

/-- src/clap/helper.py lines 342-349, HelpRunner._ignore: step down past each
configured ignorable leading mode name in order, stopping at the first
mismatch. -/
def ignoreLoop : List String → UI → UI
  | [], u => u
  | i :: rest, u => if u.str = i then ignoreLoop rest u.down else u

/-- src/clap/helper.py lines 351-362, HelpRunner.run: after stripping
ignorable leading modes, a reachable --usage prints the usage-only rendering
of the top-level mode and sets the displayed flag, a reachable --examples
prints the examples-only rendering and sets it too (both blocks print when
both tokens are present), and only when neither fired do _byoptions and
_byhelpcommand run — those two fallback paths are guarded off by the
displayed flag in every run this development reasons about and are left
unmodelled, recorded as `none`. The result pairs the printed blocks, in
print order, with the displayed flag. -/
def HelpRunner.run (hr : HelpRunner) : Option (List String × Bool) :=
  let u := ignoreLoop hr.ignorecmds hr.ui
  let usagePart :=
    if u.containsTok "--usage" then
      [((Helper.init hr.program_name u.top.current.mode).usage).render]
    else []
  let examplesPart :=
    if u.containsTok "--examples" then
      [((Helper.init hr.program_name u.top.current.mode).examples).render]
    else []
  if u.containsTok "--usage" || u.containsTok "--examples" then
    some (usagePart ++ examplesPart, true)
  else none

/-- The mode document of the claim C5 scenario: one usage line and one
example. -/
def c5Mode : Mode :=
  { helpDoc := "", usageDoc := ["foo [options]"],
    examplesDoc := [{ line := some "foo --fast", desc := none }] }

/-- A single-mode parse in which both --usage and --examples are present. -/
def c5View : UIView :=
  { name := "", present := ["--usage", "--examples"], operands := [], mode := c5Mode }

/-- The claim C5 counterexample cursor. -/
def c5UI : UI :=
  { above := [], current := c5View, below := [] }

/-- The help runner over that cursor. -/
def c5Runner : HelpRunner :=
  HelpRunner.init c5UI "foo"

/-- Claim C5, counterexample: on a cursor containing --usage together with
--examples, run() prints TWO blocks — the usage block and then the examples
block — not only the usage block; displayed is still reported as true. -/
theorem run_usage_counterexample :
    c5UI.containsTok "--usage" = true ∧
    HelpRunner.run c5Runner
      = some (["usage: foo foo [options]", "Examples:\n   foo foo --fast"], true) ∧
    (["usage: foo foo [options]", "Examples:\n   foo foo --fast"] : List String).length ≠ 1 := by
  refine ⟨rfl, rfl, by decide⟩

/-- Claim C5 (amended): for every cursor on which --usage is reachable after
the ignorable leading modes are stripped, run() prints the usage-only
rendering of the top-level mode first and reports help as displayed, and the
-h, --help and help-command paths contribute nothing (they are guarded
off by the displayed flag); but when --examples is also present the examples block is
printed after the usage block, so the output is the usage block alone exactly
when --examples is absent. -/
theorem run_usage_amended (hr : HelpRunner)
    (husage : (ignoreLoop hr.ignorecmds hr.ui).containsTok "--usage" = true) :
    HelpRunner.run hr
      = some ((((Helper.init hr.program_name
          (ignoreLoop hr.ignorecmds hr.ui).top.current.mode).usage).render)
        :: (if (ignoreLoop hr.ignorecmds hr.ui).containsTok "--examples" then
              [((Helper.init hr.program_name
                (ignoreLoop hr.ignorecmds hr.ui).top.current.mode).examples).render]
            else []), true) := by
  unfold HelpRunner.run
  simp [husage]

/-- A single-mode parse in which only --usage is present. -/
def c5wView : UIView :=
  { name := "", present := ["--usage"], operands := [], mode := c5Mode }

/-- The claim C5 witness cursor and runner. -/
def c5wRunner : HelpRunner :=
  HelpRunner.init { above := [], current := c5wView, below := [] } "foo"

/-- Claim C5's amended theorem instantiated at the --usage-only cursor. -/
theorem run_usage_amended_witness :
    HelpRunner.run c5wRunner
      = some ((((Helper.init c5wRunner.program_name
          (ignoreLoop c5wRunner.ignorecmds c5wRunner.ui).top.current.mode).usage).render)
        :: (if (ignoreLoop c5wRunner.ignorecmds c5wRunner.ui).containsTok "--examples" then
              [((Helper.init c5wRunner.program_name
                (ignoreLoop c5wRunner.ignorecmds c5wRunner.ui).top.current.mode).examples).render]
            else []), true) :=
  run_usage_amended c5wRunner (by decide)

end Clap
